import Mathlib

/-!
Verification development for `artillery-engine-mqtt` (`index.js`).

The file shallowly embeds the two engines found in `index.js` — the legacy
prototype-based `MqttEngine` (RPC correlation, `__handleResponse`,
`processResponse`, `endCallback`) and the exported class-based `MqttEngine`
(`vuInit`, the waterfall `done` teardown, the `publish`/`function`/`loop`
step compiler) — and proves or refutes the specification claims about them.

Conventions of the embedding:
* JavaScript values are the inductive `JSValue`; `undefined` is `JSValue.undefined`.
* Callback-style control flow is turned into explicit state passing: each
  embedded operation returns its updated state together with a list of
  observable events (event-sink emissions, console writes, callback
  invocations) in the order the source produces them.
* External collaborators (the transport, `engineUtil.captureOrMatch`,
  `helpers.template`) enter as explicit parameters; built-ins
  (`JSON.parse`, `JSON.stringify`) are modelled by executable functions.
* A JavaScript identifier that is referenced but never declared (the source
  has several) is modelled by an `Option` binding that is `none`; reading it
  takes the exception path, exactly as the interpreter would.
-/

namespace Mqtt

/-- JavaScript values, as far as the engine manipulates them. -/
inductive JSValue where
  | undefined
  | null
  | bool (b : Bool)
  | num (n : Int)
  | str (s : String)
  | arr (elems : List JSValue)
  | obj (fields : List (String × JSValue))
deriving Inhabited

/-- JavaScript truthiness for the conditions the engine evaluates. -/
def truthy : JSValue → Bool
  | .undefined => false
  | .null => false
  | .bool b => b
  | .num n => n != 0
  | .str s => s ≠ ""
  | .arr _ => true
  | .obj _ => true

/-- Property access `v[name]`; `undefined` when absent or not an object. -/
def jsGetField (v : JSValue) (name : String) : JSValue :=
  match v with
  | .obj fields =>
    match fields.find? (fun kv => kv.1 = name) with
    | some kv => kv.2
    | none => .undefined
  | _ => .undefined

/-- Index access `v[i]`; `undefined` when out of range or not an array. -/
def jsIndex (v : JSValue) (i : Nat) : JSValue :=
  match v with
  | .arr elems => (elems.get? i).getD .undefined
  | _ => .undefined

/-- The character `{` written without a literal brace. -/
def lbrace : Char := Char.ofNat 123

/-- The character `}` written without a literal brace. -/
def rbrace : Char := Char.ofNat 125

/-- Escape the characters of a string the way `JSON.stringify` quotes them
(quotes and backslashes; other characters kept verbatim). -/
def jsonEscapeChars : List Char → List Char
  | [] => []
  | c :: cs =>
      if c = '"' then '\\' :: '"' :: jsonEscapeChars cs
      else if c = '\\' then '\\' :: '\\' :: jsonEscapeChars cs
      else c :: jsonEscapeChars cs

/-- Escape a string for `JSON.stringify` quoting. -/
def jsonEscape (s : String) : String :=
  String.mk (jsonEscapeChars s.toList)

mutual

/-- Model of the `JSON.stringify` built-in on `JSValue` (the engine only
serialises plain data: `undefined` prints as `null` here, which is the
array-element behaviour and never observed at top level by the claims). -/
def jsonStringify : JSValue → String
  | .undefined => "null"
  | .null => "null"
  | .bool b => if b then "true" else "false"
  | .num n => toString n
  | .str s => "\"" ++ jsonEscape s ++ "\""
  | .arr elems => "[" ++ jsonStringifyList elems ++ "]"
  | .obj fields => (String.singleton lbrace) ++ jsonStringifyFields fields ++ (String.singleton rbrace)

/-- Comma-separated serialisation of array elements. -/
def jsonStringifyList : List JSValue → String
  | [] => ""
  | [v] => jsonStringify v
  | v :: rest => jsonStringify v ++ "," ++ jsonStringifyList rest

/-- Comma-separated serialisation of object fields. -/
def jsonStringifyFields : List (String × JSValue) → String
  | [] => ""
  | [kv] => "\"" ++ jsonEscape kv.1 ++ "\":" ++ jsonStringify kv.2
  | kv :: rest =>
      "\"" ++ jsonEscape kv.1 ++ "\":" ++ jsonStringify kv.2 ++ "," ++ jsonStringifyFields rest

end

/-- Skip JSON whitespace. -/
def jsonSkipWs : List Char → List Char
  | [] => []
  | c :: cs => if c = ' ' ∨ c = '\n' ∨ c = '\r' ∨ c = '\t' then jsonSkipWs cs else c :: cs

/-- Read the characters of a JSON string literal after the opening quote,
returning the contents and the remainder after the closing quote. -/
def jsonStringChars : List Char → Option (List Char × List Char)
  | [] => none
  | '"' :: cs => some ([], cs)
  | '\\' :: c :: cs =>
      (jsonStringChars cs).map (fun p => ((if c = 'n' then '\n' else c) :: p.1, p.2))
  | c :: cs => (jsonStringChars cs).map (fun p => (c :: p.1, p.2))

/-- Take a maximal run of decimal digits. -/
def jsonTakeDigits : List Char → List Char × List Char
  | [] => ([], [])
  | c :: cs =>
      if c.isDigit then
        let p := jsonTakeDigits cs
        (c :: p.1, p.2)
      else ([], c :: cs)

/-- Decimal digits to a natural number. -/
def digitsToNat (ds : List Char) : Nat :=
  ds.foldl (fun acc c => acc * 10 + (c.toNat - 48)) 0

/-- Drop an expected literal word, if present. -/
def jsonDropLit : List Char → List Char → Option (List Char)
  | [], cs => some cs
  | l :: ls, c :: cs => if c = l then jsonDropLit ls cs else none
  | _ :: _, [] => none

mutual

/-- Model of the `JSON.parse` built-in on the fragment of JSON the wire
envelope uses (null, booleans, integers, strings, arrays, objects). Fuel
bounds the recursion; the entry point supplies more fuel than any input
can consume. -/
def jsonParseVal : Nat → List Char → Option (JSValue × List Char)
  | 0, _ => none
  | fuel + 1, cs =>
    match jsonSkipWs cs with
    | [] => none
    | c :: rest =>
      if c = '"' then
        (jsonStringChars rest).map (fun p => (JSValue.str (String.mk p.1), p.2))
      else if c = lbrace then
        jsonParseObjFields fuel (jsonSkipWs rest) true
      else if c = '[' then
        jsonParseArrElems fuel (jsonSkipWs rest) true
      else if c = 'n' then
        (jsonDropLit ['u', 'l', 'l'] rest).map (fun r => (JSValue.null, r))
      else if c = 't' then
        (jsonDropLit ['r', 'u', 'e'] rest).map (fun r => (JSValue.bool true, r))
      else if c = 'f' then
        (jsonDropLit ['a', 'l', 's', 'e'] rest).map (fun r => (JSValue.bool false, r))
      else if c = '-' then
        match jsonTakeDigits rest with
        | ([], _) => none
        | (ds, r) => some (JSValue.num (-(digitsToNat ds : Int)), r)
      else if c.isDigit then
        match jsonTakeDigits (c :: rest) with
        | ([], _) => none
        | (ds, r) => some (JSValue.num (digitsToNat ds : Int), r)
      else none

/-- Parse the elements of a JSON array after `[`; `first` is true before the
first element. -/
def jsonParseArrElems : Nat → List Char → Bool → Option (JSValue × List Char)
  | 0, _, _ => none
  | fuel + 1, cs, first =>
    match jsonSkipWs cs with
    | [] => none
    | c :: rest =>
      if c = ']' ∧ first then some (JSValue.arr [], rest)
      else
        match jsonParseVal fuel cs with
        | none => none
        | some (v, r) =>
          match jsonSkipWs r with
          | [] => none
          | c2 :: r2 =>
            if c2 = ']' then some (JSValue.arr [v], r2)
            else if c2 = ',' then
              match jsonParseArrElems fuel r2 false with
              | some (JSValue.arr vs, r3) => some (JSValue.arr (v :: vs), r3)
              | _ => none
            else none

/-- Parse the fields of a JSON object after the opening brace; `first` is
true before the first field. -/
def jsonParseObjFields : Nat → List Char → Bool → Option (JSValue × List Char)
  | 0, _, _ => none
  | fuel + 1, cs, first =>
    match jsonSkipWs cs with
    | [] => none
    | c :: rest =>
      if c = rbrace ∧ first then some (JSValue.obj [], rest)
      else if c = '"' then
        match jsonStringChars rest with
        | none => none
        | some (key, r) =>
          match jsonSkipWs r with
          | ':' :: r2 =>
            match jsonParseVal fuel r2 with
            | none => none
            | some (v, r3) =>
              match jsonSkipWs r3 with
              | [] => none
              | c2 :: r4 =>
                if c2 = rbrace then some (JSValue.obj [(String.mk key, v)], r4)
                else if c2 = ',' then
                  match jsonParseObjFields fuel r4 false with
                  | some (JSValue.obj fs, r5) => some (JSValue.obj ((String.mk key, v) :: fs), r5)
                  | _ => none
                else none
          | _ => none
      else none

end

/-- `JSON.parse` entry point: `Except` models the exception on bad input. -/
def JSON_parse (s : String) : Except String JSValue :=
  match jsonParseVal (s.length + 2) s.toList with
  | some (v, rest) =>
      if (jsonSkipWs rest).isEmpty then .ok v
      else .error "SyntaxError: Unexpected token in JSON"
  | none => .error "SyntaxError: Unexpected end of JSON input"

/-- `String.indexOf` of a character: index of the first occurrence, `none`
for JavaScript's `-1`. -/
def jsIndexOfAux (c : Char) : List Char → Nat → Option Nat
  | [], _ => none
  | x :: xs, i => if x = c then some i else jsIndexOfAux c xs (i + 1)

/-- `s.indexOf(c)` with `none` standing for `-1`. -/
def jsIndexOf (s : String) (c : Char) : Option Nat :=
  jsIndexOfAux c s.toList 0

/-- `s.substr(0, i)`. -/
def jsSubstrTo (s : String) (i : Nat) : String :=
  String.mk (s.toList.take i)

/-- `s.substr(i)`. -/
def jsSubstrFrom (s : String) (i : Nat) : String :=
  String.mk (s.toList.drop i)

/-!
## Legacy correlation engine (`index.js` lines 14-362)

State of `this.responseHandlers`, the pending-request map keyed by the
request's `uniqueId`. The stored `callback` closure (`ackCallback`) is
identified by the entry's key; its invocation is recorded as an
`invokeAck` event carrying the argument `json.p[1]`.
-/

/-- One entry of `responseHandlers` (`index.js` 235-239):
`{callback: ackCallback, executed: false, rpc: requestSpec.rpc}`. -/
structure PendingEntry where
  executed : Bool
  rpc : String
deriving Repr, DecidableEq, Inhabited

/-- The `responseHandlers` map, as an association list keyed by the numeric
value of `_.uniqueId()` (JavaScript property keys coerce the number in
`json.id` and the string id used at registration to the same key). -/
abbrev Handlers := List (Nat × PendingEntry)

/-- Map lookup `responseHandlers[k]`. -/
def lookupEntry (hs : Handlers) (k : Nat) : Option PendingEntry :=
  match hs.find? (fun kv => kv.1 = k) with
  | some kv => some kv.2
  | none => none

/-- `responseHandlers[k] = e` (replace an existing binding, else append). -/
def insertEntry (hs : Handlers) (k : Nat) (e : PendingEntry) : Handlers :=
  if (hs.find? (fun kv => kv.1 = k)).isSome then
    hs.map (fun kv => if kv.1 = k then (k, e) else kv)
  else hs ++ [(k, e)]

/-- `data.executed = true` for the entry at `k` (in-place mutation of the
object held in the map). -/
def setExecuted (hs : Handlers) (k : Nat) : Handlers :=
  hs.map (fun kv => if kv.1 = k then (k, { kv.2 with executed := true }) else kv)

/-- `delete responseHandlers[k]`. -/
def eraseEntry (hs : Handlers) (k : Nat) : Handlers :=
  hs.filter (fun kv => kv.1 ≠ k)

/-- Observable effects of the legacy correlation engine, in program order. -/
inductive CorrEvent where
  | consoleError (message : String)
  | emitError (message : String)
  | invokeAck (id : Nat) (args : JSValue)
  | stepCallback (err : Option String)
  | wsSend (payload : String)
  | thrown (message : String)
deriving Inhabited

/-- The identifier `msg` read throughout the body of `__handleResponse`
(`index.js` 52-55). It is declared nowhere in `index.js` — the function's
parameter is named `message` — so reading it throws a `ReferenceError`. -/
def msgBinding : Option String := none

/-- The `try` body of `__handleResponse` (`index.js` 51-65), as it would
execute on a message string `msg`: split on the first `|`; when the
responder id is `41`, `JSON.parse` the remainder, look up
`responseHandlers[json.id]`, and if an entry is there set
`data.executed = true` and call `data.callback(json.p[1])`. A thrown
`JSON.parse` error reaches the surrounding `catch` (`console.error`).
Note the body neither checks `data.executed` nor deletes the entry. -/
def handleResponseTry (msg : String) (hs : Handlers) : Handlers × List CorrEvent :=
  match jsIndexOf msg '|' with
  | none => (hs, [])
  | some i =>
    let responderId := jsSubstrTo msg i
    let content := jsSubstrFrom msg (i + 1)
    if responderId = "41" then
      match JSON_parse content with
      | .error e => (hs, [.consoleError ("ERROR parsing web socket message " ++ e)])
      | .ok json =>
        match jsGetField json "id" with
        | .num (Int.ofNat k) =>
          match lookupEntry hs k with
          | some _ => (setExecuted hs k, [.invokeAck k (jsIndex (jsGetField json "p") 1)])
          | none => (hs, [])
        | _ => (hs, [])
    else (hs, [])

/-- `MqttEngine.prototype.__handleResponse` (`index.js` 48-70). Its first
statement reads the undeclared identifier `msg` (the parameter is
`message`), so the `try` body throws `ReferenceError` immediately and the
`catch` logs it; the pending map is never touched. The `try` body's
intended behaviour is `handleResponseTry`. -/
def handleResponse (topic message : String) (hs : Handlers) : Handlers × List CorrEvent :=
  match msgBinding with
  | none =>
      (hs, [.consoleError "ERROR parsing web socket message ReferenceError: msg is not defined"])
  | some msg => handleResponseTry msg hs

/-- The legacy engine object: `function MqttEngine(script)` (`index.js`
14-16) assigns only `this.config`; the `this.timeout` field read at line
252 is never assigned anywhere in `index.js`, so it stays `undefined`
(`none`). `configTimeout` keeps the `timeout` field of `script.config`. -/
structure LegacyEngine where
  configTimeout : Option Nat
  timeout : Option Nat
deriving Repr, DecidableEq

/-- The legacy constructor: `this.config = script.config` and nothing else. -/
def legacyEngineInit (configTimeout : Option Nat) : LegacyEngine :=
  { configTimeout := configTimeout, timeout := none }

/-- A timer armed by `setTimeout(cb, delay)`; `delay = none` models an
`undefined` delay argument (which `setTimeout` treats as `0`). -/
structure Timer where
  forId : Nat
  delay : Option Nat
deriving Repr, DecidableEq

/-- The acknowledge branch of `endCallback` (`index.js` 234-253): store
`{callback: ackCallback, executed: false, rpc}` under `uniqueId`, arm
`setTimeout(..., self.timeout)`, then `ws.send(payload)`. -/
def registerAck (eng : LegacyEngine) (uniqueId : Nat) (rpc : String) (payload : String)
    (hs : Handlers) : Handlers × Timer × List CorrEvent :=
  (insertEntry hs uniqueId { executed := false, rpc := rpc },
   { forId := uniqueId, delay := eng.timeout },
   [.wsSend payload])

/-- The `setTimeout` closure armed by `endCallback` (`index.js` 240-252):
read `responseHandlers[uniqueId]`, build the timeout message from
`data.rpc` (a `TypeError` if the entry were absent), and if the entry is
not yet executed delete it, emit the error and fail the step; otherwise
just delete it. -/
def timeoutFire (uniqueId : Nat) (hs : Handlers) : Handlers × List CorrEvent :=
  match lookupEntry hs uniqueId with
  | none => (hs, [.thrown "TypeError: Cannot read properties of undefined (reading rpc)"])
  | some data =>
    let err := "response timeout for " ++ data.rpc
    if !data.executed then
      (eraseEntry hs uniqueId, [.emitError err, .stepCallback (some err)])
    else
      (eraseEntry hs uniqueId, [])

/-!
## `processResponse` (`index.js` 80-141)

Validation of a matched acknowledge. `engineUtil.captureOrMatch` is an
external collaborator; the completion it would deliver is passed in as the
`capm` argument. `deepEqual` is referenced at line 82 but is declared
nowhere in `index.js` and not imported, so evaluating it throws.
-/

/-- The per-VU context, as the legacy engine mutates it: the variable
mapping `context.vars` (which also holds `$`) and `context._successCount`. -/
structure VUContext where
  vars : List (String × JSValue)
  successCount : Nat
deriving Inhabited

/-- `context.vars[k] = v`: update an existing binding in place, else append
(JavaScript object insertion order). -/
def setVar (vars : List (String × JSValue)) (k : String) (v : JSValue) :
    List (String × JSValue) :=
  if (vars.find? (fun kv => kv.1 = k)).isSome then
    vars.map (fun kv => if kv.1 = k then (k, v) else kv)
  else vars ++ [(k, v)]

/-- Fold `captures` into `context.vars`, in order. -/
def mergeCaptures (vars : List (String × JSValue)) :
    List (String × JSValue) → List (String × JSValue)
  | [] => vars
  | (k, v) :: rest => mergeCaptures (setVar vars k v) rest

/-- The acknowledge spec handed to `processResponse` (`index.js` 74-79,
214-218): the templated `data`, `capture` and `match` fields of
`requestSpec.acknowledge` (absent fields are `undefined`). `match` is a
reserved word in Lean, hence the field name `matchSpec`. -/
structure AckResponse where
  data : JSValue
  capture : JSValue
  matchSpec : JSValue
deriving Inhabited

/-- One entry of `result.matchResults` from `engineUtil.captureOrMatch`. -/
structure MatchRec where
  success : Bool
  expected : JSValue
  got : JSValue
  expression : String
deriving Inhabited

/-- The result `engineUtil.captureOrMatch` passes to its callback; the
source field name `matches` is reserved syntax in Lean, hence
`matchResults`. -/
structure CapMatchResult where
  matchResults : List MatchRec
  captures : List (String × JSValue)
deriving Inhabited

/-- Observable effects of `processResponse`, in program order. -/
inductive PREvent where
  | emitError (message : String)
  | emitMatch (success : Bool) (expected : JSValue) (got : JSValue) (expression : String)
deriving Inhabited

/-- How `processResponse` completes: a thrown exception, or
`callback(err, context)`. -/
inductive PROut where
  | threw (message : String)
  | cb (err : Option String)
deriving Inhabited

/-- The identifier `deepEqual` read at `index.js` line 82; it is declared
nowhere in the file and not imported, so reading it throws. -/
def deepEqualBinding : Option (JSValue → JSValue → Bool) := none

/-- `processResponse` after the `response.data` check (`index.js` 89-140):
succeed when neither `capture` nor `match` is supplied; otherwise build
`fauxResponse = {body: JSON.stringify(data)}` and handle the collaborator's
completion — on error emit it and fail; with failed matches emit
`Failed match` and fail; on full success emit one `match` event per
expression, fold `captures` into `context.vars`, set `context.vars.$` to
the serialised body, and increment `context._successCount`. -/
def processResponseRest (data : JSValue) (response : AckResponse) (context : VUContext)
    (capm : Except String CapMatchResult) : VUContext × List PREvent × PROut :=
  if ¬ truthy response.capture ∧ ¬ truthy response.matchSpec then
    (context, [], .cb none)
  else
    let fauxBody := jsonStringify data
    match capm with
    | .error err => (context, [.emitError err], .cb (some err))
    | .ok result =>
      let failedMatches := result.matchResults.filter (fun v => !v.success)
      if failedMatches.length > 0 then
        (context, [.emitError "Failed match"], .cb (some "Failed match"))
      else
        ({ vars := setVar (mergeCaptures context.vars result.captures) "$" (.str fauxBody),
           successCount := context.successCount + 1 },
         result.matchResults.map (fun v => .emitMatch v.success v.expected v.got v.expression),
         .cb none)

/-- `processResponse` (`index.js` 80-141). The first statement is
`if (response.data && !deepEqual(data, response.data))`: when
`response.data` is truthy the unbound `deepEqual` is evaluated and throws;
when it is falsy control falls through to `processResponseRest`. -/
def processResponse (data : JSValue) (response : AckResponse) (context : VUContext)
    (capm : Except String CapMatchResult) : VUContext × List PREvent × PROut :=
  if truthy response.data then
    match deepEqualBinding with
    | none => (context, [], .threw "ReferenceError: deepEqual is not defined")
    | some deepEqual =>
      if ! deepEqual data response.data then
        (context, [.emitError "data is not valid"], .cb (some "data is not valid"))
      else processResponseRest data response context capm
  else processResponseRest data response context capm

/-!
## Class-based engine (`index.js` lines 382-645)

This is the engine the file exports (the second `module.exports`
assignment wins). It has no correlation logic; its custom pieces are the
VU lifecycle (`vuInit`, the waterfall `done` teardown) and the
`publish`/`function`/`log`/`loop` step compiler.
-/

/-- Events of one VU's lifecycle, in program order. `finalCallback` is the
scenario's final `callback(error, context)`. -/
inductive VUEvent where
  | closeTransport
  | emitCounter (name : String)
  | finalCallback (err : Option String) (withContext : Bool)
deriving Repr, DecidableEq, Inhabited

/-- What `done` can see of the waterfall's context argument: whether a
context value arrived at all, and whether `context.mqtt` was set. -/
structure DoneContext where
  mqtt : Bool
deriving Repr, DecidableEq, Inhabited

/-- The waterfall completion `done` of the class engine (`index.js`
498-518). On `error` it returns immediately — without touching
`context.mqtt`; otherwise, if a context with an `mqtt` handle is present it
calls `context.mqtt.end` and delivers the close completion `closeErr` as
the final result (with an `mqtt.error.close` or `mqtt.close` counter),
else it delivers success directly. -/
def doneCb (error : Option String) (context : Option DoneContext)
    (closeErr : Option String) : List VUEvent :=
  match error with
  | some e => [.finalCallback (some e) context.isSome]
  | none =>
    match context with
    | some ctx =>
      if ctx.mqtt then
        match closeErr with
        | some ce =>
            [.closeTransport, .emitCounter "mqtt.error.close", .finalCallback (some ce) true]
        | none =>
            [.closeTransport, .emitCounter "mqtt.close", .finalCallback none true]
      else [.finalCallback none true]
    | none => [.finalCallback none false]

/-- What the legacy `scenarioWaterfallCb` can see of its context argument:
whether a context arrived and whether `context.client` was set. -/
structure LegacyDoneContext where
  client : Bool
deriving Repr, DecidableEq, Inhabited

/-- The legacy waterfall completion `scenarioWaterfallCb` (`index.js`
348-358): close `context.client` whenever it is present — error or not —
then deliver `(err, context)`. -/
def scenarioWaterfallCb (err : Option String) (context : Option LegacyDoneContext) :
    List VUEvent :=
  (match context with
   | some ctx => if ctx.client then [VUEvent.closeTransport] else []
   | none => []) ++ [.finalCallback err context.isSome]

/-!
### `vuInit` (`index.js` 452-494)

`vuInit` attaches four handlers to the fresh mqtt client:
`once("connect")` (store the handle, emit the connect counter, call the
waterfall continuation), `once("error")` (call the continuation with the
error — commented `Throw error fast if connection is failed`), a
persistent `on("error")` (forward to the event sink) and a persistent
`on("reconnect")` (a reconnect counter). The two `once` handlers are
consumed by their first matching event; nothing ever detaches the
`once("error")` handler after a successful connect.
-/

/-- Which `once` handlers attached by `vuInit` are still armed. -/
structure VuInitHandlers where
  onceConnect : Bool
  onceError : Bool
deriving Repr, DecidableEq, Inhabited

/-- Handler state right after `vuInit` ran. -/
def vuInitHandlers : VuInitHandlers := { onceConnect := true, onceError := true }

/-- Transport-level notifications the mqtt client can emit. -/
inductive TransportEv where
  | connected
  | errored (message : String)
  | reconnect
deriving Repr, DecidableEq, Inhabited

/-- Observable outputs of the `vuInit` handlers. `stepCb` is the waterfall
continuation of the `vuInit` step (`callback(null, ctx)` on connect,
`callback(error)` from the once-error handler). -/
inductive SinkEv where
  | counter (name : String)
  | emitError (message : String)
  | stepCb (err : Option String)
deriving Repr, DecidableEq, Inhabited

/-- Deliver one transport event to the handlers `vuInit` attached
(`index.js` 466-493). An `error` event runs the still-armed
`once("error")` handler first (it was attached first, line 475) and then
the persistent `on("error")` forwarder (line 482); `reconnect` emits the
`mqtt.reconnect.<clientId>` counter. -/
def deliverTransportEv (clientId : String) (h : VuInitHandlers) (e : TransportEv) :
    VuInitHandlers × List SinkEv :=
  match e with
  | .connected =>
    if h.onceConnect then
      ({ h with onceConnect := false }, [.counter "mqtt.connect", .stepCb none])
    else (h, [])
  | .errored m =>
    if h.onceError then
      ({ h with onceError := false }, [.stepCb (some m), .emitError m])
    else (h, [.emitError m])
  | .reconnect => (h, [.counter ("mqtt.reconnect." ++ clientId)])

/-- Deliver a sequence of transport events, collecting all outputs. -/
def runTransportEvents (clientId : String) (h : VuInitHandlers) :
    List TransportEv → List SinkEv
  | [] => []
  | e :: rest =>
    let (h2, out) := deliverTransportEv clientId h e
    out ++ runTransportEvents clientId h2 rest

/-- How many times a list of sink outputs invoked the waterfall
continuation of the `vuInit` step. -/
def countStepCb (evs : List SinkEv) : Nat :=
  (evs.filter (fun e => match e with | .stepCb _ => true | _ => false)).length

/-!
### The class step compiler (`index.js` 524-642)
-/

/-- Look a name up in `config.processor`. -/
def lookupProc {α : Type} (processor : List (String × α)) (name : String) : Option α :=
  match processor.find? (fun kv => kv.1 = name) with
  | some kv => some kv.2
  | none => none

/-- Observable effects of a compiled step, in program order. `hookRun`
records that the named processor function was invoked with the object
`{topic, payload}` (plus the context and the event emitter). -/
inductive StepEv where
  | hookRun (name : String) (topic : JSValue) (payload : JSValue)
  | warnMissing (name : String)
  | transportPublish (topic : JSValue) (payload : String) (options : JSValue)
  | emitError (message : String)
  | counter (name : String)
  | rate (name : String)
deriving Inhabited

/-- How a compiled step completes: a synchronous throw that escapes the
step, `callback(err, ...)` (recording whether the context was passed
along), or `callback(null, context)`. -/
inductive StepOut where
  | fatal (message : String)
  | cbErr (err : String) (withContext : Bool)
  | cbOk
deriving Inhabited

/-- A `beforeRequest` processor function, viewed through what the engine
observes of it: applied to `{topic, payload}` and the context, it either
calls `next(err)` (`some err`) or `next(null)` (`none`). -/
abbrev Hook := JSValue → JSValue → VUContext → Option String

/-- How the `A.eachSeries` hook chain stops early. -/
inductive HookStop where
  | fatal (message : String)
  | errored (err : String)
deriving Inhabited

/-- The `A.eachSeries(functionNames, iteratee, done)` chain of the publish
step (`index.js` 602-630), one name at a time, strictly in series: template
the name, look it up in `config.processor`, and run it on
`({topic, payload}, context, ee, next)`. A missing name reaches
`processFunc = function (r, c, e, cb) ...` — an assignment to the `const`
declared two lines above, which throws `TypeError` before the warning
`console.log` on the following line runs; the throw escapes the iteratee.
A hook that calls `next(err)` stops the chain with that error. -/
def runHooks (processor : List (String × Hook)) (tmplName : String → VUContext → String)
    (topic payload : JSValue) (context : VUContext) :
    List String → List StepEv × Option HookStop
  | [] => ([], none)
  | name :: rest =>
    let fn := tmplName name context
    match lookupProc processor fn with
    | none => ([], some (.fatal "TypeError: Assignment to constant variable."))
    | some h =>
      match h topic payload context with
      | some e => ([.hookRun fn topic payload], some (.errored e))
      | none =>
        let r := runHooks processor tmplName topic payload context rest
        (.hookRun fn topic payload :: r.1, r.2)

/-- The publish request spec `rs.publish` (`rs.publish.beforeRequest`
already defaulted to `[]` by the `|| []` at line 599). -/
structure PublishSpec where
  topic : JSValue
  payload : JSValue
  options : JSValue
  beforeRequest : List String
deriving Inhabited

/-- The payload string handed to `context.mqtt.publish` (`index.js` 582):
`typeof payload === "string" ? payload : JSON.stringify(payload)`. -/
def publishWire (payload : JSValue) : String :=
  match payload with
  | .str s => s
  | v => jsonStringify v

/-- The inner `publish(context, callback)` (`index.js` 577-595): call the
transport with the rendered topic, the wire payload and
`rs.publish.options`; `pubErr` is the completion the transport passes to
the publish callback. On error, emit it and `callback(error)` — without
the context; on success, emit the publish counter and rate and continue. -/
def publishAction (topic payload options : JSValue) (pubErr : Option String) :
    List StepEv × StepOut :=
  match pubErr with
  | some e =>
      ([.transportPublish topic (publishWire payload) options, .emitError e], .cbErr e false)
  | none =>
      ([.transportPublish topic (publishWire payload) options,
        .counter "mqtt.publish_count", .rate "mqtt.publish_rate"], .cbOk)

/-- The compiled publish step `f` (`index.js` 572-631): render topic and
payload once, concatenate the scenario-level and publish-level
`beforeRequest` names, run them strictly in series via `A.eachSeries`, and
in the chain's `done` either fail the step with the hook's error
(`callback(err, context)`) or finally run `publish(context, callback)`. -/
def publishStep (processor : List (String × Hook)) (tmpl : JSValue → VUContext → JSValue)
    (tmplName : String → VUContext → String) (scenarioBeforeRequest : List String)
    (rs : PublishSpec) (context : VUContext) (pubErr : Option String) :
    List StepEv × StepOut :=
  let topic := tmpl rs.topic context
  let payload := tmpl rs.payload context
  let functionNames := scenarioBeforeRequest ++ rs.beforeRequest
  let r := runHooks processor tmplName topic payload context functionNames
  match r.2 with
  | some (.fatal m) => (r.1, .fatal m)
  | some (.errored e) => (r.1, .cbErr e true)
  | none =>
    let p := publishAction topic payload rs.options pubErr
    (r.1 ++ p.1, p.2)

/-- A processor function as the `function` step runs it:
`func(context, ee, () => callback(null, context))`; we observe the events
it emits before invoking its continuation. -/
abbrev FuncProc := VUContext → List StepEv

/-- The class `function` step (`index.js` 553-566): look the name up in
`config.processor`; when it is absent, continue on the next tick with
`callback(null, context)` — no warning of any kind is surfaced. -/
def functionStep (processor : List (String × FuncProc)) (name : String)
    (context : VUContext) : List StepEv × StepOut :=
  match lookupProc processor name with
  | none => ([], .cbOk)
  | some func => (func context, .cbOk)

/-!
### The loop step (`index.js` 528-537, identical in the legacy engine at
146-160)
-/

/-- The count argument the engine passes to `createLoopWithCount`
(`index.js` 531): `rs.count || -1`. JavaScript `||` takes the right
operand when `rs.count` is `0` or `undefined`. -/
def jsCountOrNeg1 : Option Int → Int
  | none => -1
  | some c => if c = 0 then -1 else c

/-- Modelled from the spec: `engineUtil.createLoopWithCount` lives in
artillery's `engine_util`, outside this repository. Spec section 4.1: with
no `overValues`, a count `C ≥ 0` runs the inner steps exactly `C` times
binding the loop variable to the 0-based index, and a negative count
selects the indefinite mode (`none` here). -/
def loopIterations (count : Int) : Option Nat :=
  if 0 ≤ count then some count.toNat else none

/-- Modelled from the spec: the finite-count loop body of
`createLoopWithCount`. Runs `inner` the given number of times, binding
`loopValue` to the current 0-based index `i` in the context before each
run; the returned list records the successive bound indices. -/
def runCountLoop (inner : VUContext → VUContext) (loopValue : String) :
    Nat → Nat → VUContext → VUContext × List Nat
  | 0, _, ctx => (ctx, [])
  | n + 1, i, ctx =>
    let ctx1 := inner { ctx with vars := setVar ctx.vars loopValue (.num (i : Int)) }
    let r := runCountLoop inner loopValue n (i + 1) ctx1
    (r.1, i :: r.2)

/-!
## Theorems for the claims
-/

/-- C3: refuted — the claim says `onInboundMessage` parses the wire
envelope, checks `executed == false`, removes the entry and invokes the
settle callback, dropping malformed input with a recoverable error on the
event sink. In the code, `__handleResponse` reads the undeclared
identifier `msg` (its parameter is `message`), so EVERY inbound message —
well-formed or not — throws `ReferenceError` inside the `try`, is logged
to the console (not the event sink), and leaves the pending map untouched;
no settle callback is ever invoked from the inbound path. -/
theorem handleResponse_drops_every_message (topic message : String) (hs : Handlers) :
    handleResponse topic message hs
      = (hs, [CorrEvent.consoleError
          "ERROR parsing web socket message ReferenceError: msg is not defined"]) := rfl

/-- C1: refuted — exactly-once settlement fails in both directions. With a
pending entry registered under id 1 and a well-formed matching frame
arriving before the timeout: (a) the real `__handleResponse` settles
nothing (the `msg` ReferenceError), the entry stays, and the timeout later
settles the step with a timeout error although the response arrived;
(b) even the `try` body as written (read with `msg` bound to the
parameter) sets `executed` but neither checks it nor deletes the entry, so
the same frame delivered twice invokes the settle callback twice and the
entry is still present after both settlements. -/
theorem corrEngine_not_exactly_once :
    handleResponse "topic" "41|\x7b\"id\":1,\"p\":[null,[true]]\x7d"
        [(1, { executed := false, rpc := "createUser" })]
      = ([(1, { executed := false, rpc := "createUser" })],
         [CorrEvent.consoleError
           "ERROR parsing web socket message ReferenceError: msg is not defined"]) ∧
    timeoutFire 1 [(1, { executed := false, rpc := "createUser" })]
      = ([], [CorrEvent.emitError "response timeout for createUser",
              CorrEvent.stepCallback (some "response timeout for createUser")]) ∧
    handleResponseTry "41|\x7b\"id\":1,\"p\":[null,[true]]\x7d"
        [(1, { executed := false, rpc := "createUser" })]
      = ([(1, { executed := true, rpc := "createUser" })],
         [CorrEvent.invokeAck 1 (JSValue.arr [JSValue.bool true])]) ∧
    handleResponseTry "41|\x7b\"id\":1,\"p\":[null,[true]]\x7d"
        [(1, { executed := true, rpc := "createUser" })]
      = ([(1, { executed := true, rpc := "createUser" })],
         [CorrEvent.invokeAck 1 (JSValue.arr [JSValue.bool true])]) :=
  ⟨rfl, rfl, rfl, rfl⟩

/-- C4: refuted on the timer duration — registration arms
`setTimeout(..., self.timeout)` where `this.timeout` is assigned nowhere
in `index.js`, so with a configured timeout of 9000 the armed delay is
`undefined` (treated as 0 by `setTimeout`), not the configured duration.
The fire path itself does behave as claimed: with the entry present and
not executed it emits and fails the step with an error naming the method,
removes the entry, and a frame for the removed id arriving afterwards is
ignored even by the `try` body as written. -/
theorem ack_timer_not_configured_duration :
    (registerAck (legacyEngineInit (some 9000)) 1 "createUser" "pay" []).2.1
      = { forId := 1, delay := none } ∧
    (legacyEngineInit (some 9000)).configTimeout = some 9000 ∧
    (registerAck (legacyEngineInit (some 9000)) 1 "createUser" "pay" []).1
      = [(1, { executed := false, rpc := "createUser" })] ∧
    timeoutFire 1 [(1, { executed := false, rpc := "createUser" })]
      = ([], [CorrEvent.emitError "response timeout for createUser",
              CorrEvent.stepCallback (some "response timeout for createUser")]) ∧
    handleResponseTry "41|\x7b\"id\":1,\"p\":[null,[true]]\x7d" [] = ([], []) :=
  ⟨rfl, rfl, rfl, rfl, rfl⟩

/-- C2 counterexample: a VU whose pipeline settles with a step-level error
while a transport handle is stored in the context gets its final result
delivered with the transport never closed — the class engine's `done`
returns on the error branch before the `context.mqtt` check. -/
theorem teardown_skipped_on_error :
    doneCb (some "hook failed") (some { mqtt := true }) none
      = [VUEvent.finalCallback (some "hook failed") true] ∧
    VUEvent.closeTransport ∉ doneCb (some "hook failed") (some { mqtt := true }) none := by
  exact ⟨rfl, by decide⟩

/-- C2 amended: in the exported class engine, only a pipeline that settles
successfully closes the stored transport handle — exactly once, before the
final result is delivered (with an `mqtt.close` or `mqtt.error.close`
counter in between); a pipeline that settles with a step error is
delivered its result immediately and the handle is not closed. The legacy
wrapper's `scenarioWaterfallCb` does close the handle unconditionally. -/
theorem teardown_close_behaviour (closeErr : Option String) (ctx : DoneContext)
    (hm : ctx.mqtt = true) :
    (doneCb none (some ctx) closeErr
       = VUEvent.closeTransport
           :: VUEvent.emitCounter
                (match closeErr with | some _ => "mqtt.error.close" | none => "mqtt.close")
           :: [VUEvent.finalCallback closeErr true]) ∧
    (∀ err : String,
       doneCb (some err) (some ctx) closeErr = [VUEvent.finalCallback (some err) true]) ∧
    (∀ err : Option String,
       scenarioWaterfallCb err (some { client := true })
         = [VUEvent.closeTransport, VUEvent.finalCallback err true]) := by
  obtain ⟨m⟩ := ctx
  cases hm
  refine ⟨?_, fun err => rfl, fun err => rfl⟩
  cases closeErr <;> rfl

/-- C2 amended, witness at a concrete context and close completion. -/
theorem teardown_close_behaviour_witness :
    ({ mqtt := true } : DoneContext).mqtt = true ∧
    (doneCb none (some { mqtt := true }) none
       = VUEvent.closeTransport :: VUEvent.emitCounter "mqtt.close"
           :: [VUEvent.finalCallback none true]) :=
  ⟨rfl, (teardown_close_behaviour none { mqtt := true } rfl).1⟩

/-- C9: refuted — after a successful connect, the `once("error")` handler
attached by `vuInit` (commented as the fast-fail path for connection
failure) is still armed; the first later asynchronous transport error
therefore invokes the `vuInit` waterfall continuation a second time (in
addition to forwarding the error to the event sink), instead of only
producing sink events. -/
theorem post_connect_error_reinvokes_continuation :
    runTransportEvents "c1" vuInitHandlers
        [TransportEv.connected, TransportEv.errored "boom"]
      = [SinkEv.counter "mqtt.connect", SinkEv.stepCb none,
         SinkEv.stepCb (some "boom"), SinkEv.emitError "boom"] ∧
    countStepCb (runTransportEvents "c1" vuInitHandlers
        [TransportEv.connected, TransportEv.errored "boom"]) = 2 ∧
    countStepCb (runTransportEvents "c1" vuInitHandlers
        [TransportEv.connected, TransportEv.reconnect]) = 1 :=
  ⟨rfl, rfl, rfl⟩

/-- C7: refuted on the literal-expectation branch — when an expected
literal value is supplied, `processResponse` evaluates the undeclared
identifier `deepEqual` and throws a `ReferenceError` (even on equal data),
so no deep-equality comparison, no data-mismatch error event and no
callback ever happen. The capture/match branch does behave as claimed:
captured values are merged into `context.vars`, `$` is set to the
serialised body, one `match` event is emitted per expression and the
success counter is incremented; a failed match expression fails the step. -/
theorem processResponse_literal_branch_throws :
    processResponse (JSValue.obj [("a", JSValue.num 1)])
        { data := JSValue.obj [("a", JSValue.num 1)], capture := JSValue.undefined,
          matchSpec := JSValue.undefined }
        { vars := [], successCount := 0 }
        (Except.ok { matchResults := [], captures := [] })
      = ({ vars := [], successCount := 0 }, [],
         PROut.threw "ReferenceError: deepEqual is not defined") ∧
    processResponse (JSValue.obj [("a", JSValue.num 1)])
        { data := JSValue.undefined, capture := JSValue.obj [("json", JSValue.str "$.0")],
          matchSpec := JSValue.undefined }
        { vars := [("x", JSValue.num 0)], successCount := 3 }
        (Except.ok
          { matchResults := [{ success := true, expected := JSValue.str "e",
                               got := JSValue.str "e", expression := "$.a" }],
            captures := [("cap", JSValue.num 7)] })
      = ({ vars := [("x", JSValue.num 0), ("cap", JSValue.num 7),
                    ("$", JSValue.str (jsonStringify (JSValue.obj [("a", JSValue.num 1)])))],
           successCount := 4 },
         [PREvent.emitMatch true (JSValue.str "e") (JSValue.str "e") "$.a"],
         PROut.cb none) ∧
    jsonStringify (JSValue.obj [("a", JSValue.num 1)]) = "\x7b\"a\":1\x7d" ∧
    processResponse (JSValue.num 1)
        { data := JSValue.undefined, capture := JSValue.undefined,
          matchSpec := JSValue.obj [("json", JSValue.str "$.0")] }
        { vars := [], successCount := 0 }
        (Except.ok
          { matchResults := [{ success := false, expected := JSValue.str "e",
                               got := JSValue.str "g", expression := "$.a" }],
            captures := [] })
      = ({ vars := [], successCount := 0 },
         [PREvent.emitError "Failed match"], PROut.cb (some "Failed match")) := by
  refine ⟨rfl, rfl, ?_, rfl⟩
  simp [jsonStringify, jsonStringifyFields, jsonEscape]
  rfl

/-- C8: refuted — a `beforeRequest` hook name absent from
`config.processor` is fatal, not recoverable: the iteratee assigns to the
`const processFunc`, which throws `TypeError` before the warning
`console.log` on the next line can run (no warning event appears in the
trace, and the chain's continuation is never invoked). The `function`
step's missing-name branch does continue as a no-op, but surfaces no
warning either. -/
theorem missing_processor_is_fatal :
    publishStep ([] : List (String × Hook)) (fun v _ => v) (fun s _ => s) []
        { topic := JSValue.str "t", payload := JSValue.str "p",
          options := JSValue.undefined, beforeRequest := ["ghost"] }
        { vars := [], successCount := 0 } none
      = ([], StepOut.fatal "TypeError: Assignment to constant variable.") ∧
    functionStep ([] : List (String × FuncProc)) "ghost" { vars := [], successCount := 0 }
      = ([], StepOut.cbOk) :=
  ⟨rfl, rfl⟩

/-- Helper for C5: when every hook name in `names` resolves to a processor
function that succeeds, the `A.eachSeries` chain runs them all, in list
order, each applied to the rendered `{topic, payload}` and the context,
and completes without error. -/
theorem runHooks_all_ok (processor : List (String × Hook))
    (tmplName : String → VUContext → String) (topic payload : JSValue)
    (context : VUContext) (names : List String)
    (h : ∀ n ∈ names, ∃ hk, lookupProc processor (tmplName n context) = some hk ∧
        hk topic payload context = none) :
    runHooks processor tmplName topic payload context names
      = (names.map (fun n => StepEv.hookRun (tmplName n context) topic payload), none) := by
  induction names with
  | nil => rfl
  | cons n rest ih =>
    obtain ⟨hk, hlook, hok⟩ := h n (List.mem_cons_self n rest)
    have hrest := ih (fun m hm => h m (List.mem_cons_of_mem n hm))
    simp [runHooks, hlook, hok, hrest]

/-- Helper for C5: when the hooks before `n` all succeed and `n`'s
processor function fails with `e`, the chain runs exactly the hooks up to
and including `n` — the rest are never invoked — and stops with `e`. -/
theorem runHooks_first_fail (processor : List (String × Hook))
    (tmplName : String → VUContext → String) (topic payload : JSValue)
    (context : VUContext) (pre post : List String) (n e : String) (hk : Hook)
    (hpre : ∀ m ∈ pre, ∃ hp, lookupProc processor (tmplName m context) = some hp ∧
        hp topic payload context = none)
    (hlook : lookupProc processor (tmplName n context) = some hk)
    (hfail : hk topic payload context = some e) :
    runHooks processor tmplName topic payload context (pre ++ n :: post)
      = ((pre ++ [n]).map (fun m => StepEv.hookRun (tmplName m context) topic payload),
         some (HookStop.errored e)) := by
  induction pre with
  | nil => simp [runHooks, hlook, hfail]
  | cons m rest ih =>
    obtain ⟨hp, hplook, hpok⟩ := hpre m (List.mem_cons_self m rest)
    have hrest := ih (fun x hx => hpre x (List.mem_cons_of_mem m hx))
    simp [runHooks, hplook, hpok, hrest]

/-- C5: confirmed — the compiled publish step runs the concatenation of
the scenario-level and publish-level `beforeRequest` hooks strictly in
series (the trace lists them in execution order, each invoked with the
rendered `{topic, payload}` and the context); when all succeed, every hook
event precedes the transport publish call; when a hook fails, the
remaining hooks and the transport publish are never invoked (the trace is
exactly the hooks up to the failing one) and the step fails with that
hook's error via `callback(err, context)`. -/
theorem publish_hooks_strict_series (processor : List (String × Hook))
    (tmpl : JSValue → VUContext → JSValue) (tmplName : String → VUContext → String)
    (sbr : List String) (rs : PublishSpec) (context : VUContext) (pubErr : Option String) :
    ((∀ n ∈ sbr ++ rs.beforeRequest, ∃ hk,
        lookupProc processor (tmplName n context) = some hk ∧
        hk (tmpl rs.topic context) (tmpl rs.payload context) context = none) →
      publishStep processor tmpl tmplName sbr rs context pubErr
        = ((sbr ++ rs.beforeRequest).map
              (fun n => StepEv.hookRun (tmplName n context) (tmpl rs.topic context)
                (tmpl rs.payload context))
            ++ (publishAction (tmpl rs.topic context) (tmpl rs.payload context)
                  rs.options pubErr).1,
           (publishAction (tmpl rs.topic context) (tmpl rs.payload context)
              rs.options pubErr).2)) ∧
    (∀ pre post n e hk,
      sbr ++ rs.beforeRequest = pre ++ n :: post →
      (∀ m ∈ pre, ∃ hp, lookupProc processor (tmplName m context) = some hp ∧
          hp (tmpl rs.topic context) (tmpl rs.payload context) context = none) →
      lookupProc processor (tmplName n context) = some hk →
      hk (tmpl rs.topic context) (tmpl rs.payload context) context = some e →
      publishStep processor tmpl tmplName sbr rs context pubErr
        = ((pre ++ [n]).map (fun m => StepEv.hookRun (tmplName m context)
              (tmpl rs.topic context) (tmpl rs.payload context)),
           StepOut.cbErr e true)) := by
  constructor
  · intro hall
    have h1 := runHooks_all_ok processor tmplName (tmpl rs.topic context)
      (tmpl rs.payload context) context (sbr ++ rs.beforeRequest) hall
    simp [publishStep, h1]
  · intro pre post n e hk hsplit hpre hlook hfail
    have h2 := runHooks_first_fail processor tmplName (tmpl rs.topic context)
      (tmpl rs.payload context) context pre post n e hk hpre hlook hfail
    simp [publishStep, hsplit, h2]

/-- A two-hook processor registry exercising the chain for the C5 witness:
`h1` succeeds, `h2` fails with `boom`. -/
def hookRegistry : List (String × Hook) :=
  [("h1", fun _ _ _ => none), ("h2", fun _ _ _ => some "boom")]

/-- C5, witness: with `h1` as scenario-level hook the step publishes after
the hook event; adding the failing publish-level hook `h2` yields exactly
the two hook events, no publish, and the step fails with `boom`. -/
theorem publish_hooks_strict_series_witness :
    publishStep hookRegistry (fun v _ => v) (fun s _ => s) ["h1"]
        { topic := JSValue.str "t", payload := JSValue.str "p",
          options := JSValue.null, beforeRequest := [] }
        { vars := [], successCount := 0 } none
      = ([StepEv.hookRun "h1" (JSValue.str "t") (JSValue.str "p"),
          StepEv.transportPublish (JSValue.str "t") "p" JSValue.null,
          StepEv.counter "mqtt.publish_count", StepEv.rate "mqtt.publish_rate"],
         StepOut.cbOk) ∧
    publishStep hookRegistry (fun v _ => v) (fun s _ => s) ["h1"]
        { topic := JSValue.str "t", payload := JSValue.str "p",
          options := JSValue.null, beforeRequest := ["h2"] }
        { vars := [], successCount := 0 } none
      = ([StepEv.hookRun "h1" (JSValue.str "t") (JSValue.str "p"),
          StepEv.hookRun "h2" (JSValue.str "t") (JSValue.str "p")],
         StepOut.cbErr "boom" true) := by
  constructor
  · exact (publish_hooks_strict_series hookRegistry (fun v _ => v) (fun s _ => s) ["h1"]
      { topic := JSValue.str "t", payload := JSValue.str "p",
        options := JSValue.null, beforeRequest := [] }
      { vars := [], successCount := 0 } none).1
      (by
        intro n hn
        simp at hn
        subst hn
        exact ⟨_, rfl, rfl⟩)
  · exact (publish_hooks_strict_series hookRegistry (fun v _ => v) (fun s _ => s) ["h1"]
      { topic := JSValue.str "t", payload := JSValue.str "p",
        options := JSValue.null, beforeRequest := ["h2"] }
      { vars := [], successCount := 0 } none).2
      ["h1"] [] "h2" "boom" (fun _ _ _ => some "boom") rfl
      (by
        intro m hm
        rw [List.mem_singleton] at hm
        subst hm
        exact ⟨_, rfl, rfl⟩)
      rfl rfl

/-- C6 counterexample: a loop step with `count = 0` does not run its inner
steps zero times — JavaScript's `rs.count || -1` treats the falsy `0` as
absent and passes `-1`, which selects the indefinite mode of
`createLoopWithCount` rather than a 0-iteration loop. -/
theorem loop_count_zero_is_indefinite :
    jsCountOrNeg1 (some 0) = -1 ∧
    loopIterations (jsCountOrNeg1 (some 0)) = none ∧
    loopIterations (jsCountOrNeg1 (some 0)) ≠ some 0 := by
  decide

/-- Helper for C6: the finite-count loop binds the loop variable to the
consecutive indices `i, i + 1, ...` over its `n` runs. -/
theorem runCountLoop_indices (inner : VUContext → VUContext) (lv : String) :
    ∀ (n i : Nat) (ctx : VUContext),
      (runCountLoop inner lv n i ctx).2 = List.range' i n := by
  intro n
  induction n with
  | zero => intro i ctx; rfl
  | succ k ih =>
    intro i ctx
    simp [runCountLoop, ih, List.range'_succ]

/-- C6 amended: for a loop step with count `C ≥ 1` and no `overValues`,
the inner steps run exactly `C` times with the loop variable bound to the
0-based indices `0, 1, ..., C-1` on successive runs; a count of `0`,
however, is coerced to `-1` by `rs.count || -1` and selects the indefinite
mode (see the counterexample). -/
theorem loop_count_amended (c : Int) (hc : 1 ≤ c) (inner : VUContext → VUContext)
    (lv : String) (ctx : VUContext) :
    jsCountOrNeg1 (some c) = c ∧
    loopIterations (jsCountOrNeg1 (some c)) = some c.toNat ∧
    (runCountLoop inner lv c.toNat 0 ctx).2 = List.range c.toNat ∧
    (runCountLoop inner lv c.toNat 0 ctx).2.length = c.toNat := by
  have hne : c ≠ 0 := by omega
  have hpos : (0 : Int) ≤ c := by omega
  have h1 : jsCountOrNeg1 (some c) = c := by simp [jsCountOrNeg1, hne]
  have hidx := runCountLoop_indices inner lv c.toNat 0 ctx
  refine ⟨h1, ?_, ?_, ?_⟩
  · rw [h1]; simp [loopIterations, hpos]
  · rw [hidx]; exact (List.range_eq_range' c.toNat).symm
  · rw [hidx]; simp

/-- C6 amended, witness at count 3: the loop variable takes the values
0, 1, 2 over exactly three runs. -/
theorem loop_count_amended_witness :
    (1 : Int) ≤ 3 ∧
    (jsCountOrNeg1 (some 3) = 3 ∧
     loopIterations (jsCountOrNeg1 (some 3)) = some (3 : Int).toNat ∧
     (runCountLoop id "$loopCount" (3 : Int).toNat 0 { vars := [], successCount := 0 }).2
       = List.range (3 : Int).toNat ∧
     (runCountLoop id "$loopCount" (3 : Int).toNat 0 { vars := [], successCount := 0 }).2.length
       = (3 : Int).toNat) :=
  ⟨by decide,
   loop_count_amended 3 (by decide) id "$loopCount" { vars := [], successCount := 0 }⟩

/-- C10: confirmed — the transport publish call receives the rendered
topic and the step's `rs.publish.options` unchanged; a string payload is
passed verbatim, and any non-string payload is serialised with
`JSON.stringify`; with no `beforeRequest` hooks the compiled step performs
exactly this transport call. -/
theorem publish_wire_arguments (topic options : JSValue) (pubErr : Option String)
    (s : String) (v : JSValue) (hv : ∀ t : String, v ≠ JSValue.str t)
    (tmpl : JSValue → VUContext → JSValue) (tmplName : String → VUContext → String)
    (rt rp ro : JSValue) (context : VUContext) :
    publishWire (JSValue.str s) = s ∧
    publishWire v = jsonStringify v ∧
    (publishAction topic (JSValue.str s) options pubErr).1.head?
      = some (StepEv.transportPublish topic s options) ∧
    (publishAction topic v options pubErr).1.head?
      = some (StepEv.transportPublish topic (jsonStringify v) options) ∧
    (publishStep [] tmpl tmplName []
        { topic := rt, payload := rp, options := ro, beforeRequest := [] }
        context pubErr).1
      = (publishAction (tmpl rt context) (tmpl rp context) ro pubErr).1 := by
  have hw : publishWire v = jsonStringify v := by
    cases v <;> first | rfl | exact absurd rfl (hv _)
  refine ⟨rfl, hw, ?_, ?_, ?_⟩
  · cases pubErr <;> rfl
  · cases pubErr <;> simp [publishAction, hw]
  · cases pubErr <;> rfl

/-- C10, witness: a string payload `hello` goes through verbatim, an
object payload is serialised, topic and options unchanged. -/
theorem publish_wire_arguments_witness :
    (∀ t : String, JSValue.obj [("a", JSValue.num 1)] ≠ JSValue.str t) ∧
    (publishAction (JSValue.str "top") (JSValue.str "hello") JSValue.null none).1.head?
      = some (StepEv.transportPublish (JSValue.str "top") "hello" JSValue.null) ∧
    (publishAction (JSValue.str "top") (JSValue.obj [("a", JSValue.num 1)]) JSValue.null
        none).1.head?
      = some (StepEv.transportPublish (JSValue.str "top")
          (jsonStringify (JSValue.obj [("a", JSValue.num 1)])) JSValue.null) :=
  ⟨fun t h => JSValue.noConfusion h,
   (publish_wire_arguments (JSValue.str "top") JSValue.null none "hello"
      (JSValue.obj [("a", JSValue.num 1)]) (fun t h => JSValue.noConfusion h)
      (fun v _ => v) (fun s _ => s) JSValue.null JSValue.null JSValue.null
      { vars := [], successCount := 0 }).2.2.1,
   (publish_wire_arguments (JSValue.str "top") JSValue.null none "hello"
      (JSValue.obj [("a", JSValue.num 1)]) (fun t h => JSValue.noConfusion h)
      (fun v _ => v) (fun s _ => s) JSValue.null JSValue.null JSValue.null
      { vars := [], successCount := 0 }).2.2.2.1⟩

end Mqtt
